import Mathlib

/-!
Shallow embedding of `check-malicious.js` from the npm-supply-chain-scanner
repository, together with theorems settling the frozen claims about it.

Conventions of the embedding:
* JavaScript strings are Lean `String`s; `s.startsWith(p)` is modelled by
  `strStarts`, `s.includes(n)` by `strIncludes`, `s.toLowerCase()` by
  `lowerStr` (ASCII lowering, which covers all strings the program compares).
* JavaScript `Map` objects are association lists with `Map.set` semantics
  (`mapSet`: in-place update of an existing key, else append), preserving
  insertion order exactly as JS `Map` iteration does.
* Fallible JS operations (a thrown `TypeError`, a rejected promise) are
  `Except` values; `undefined`/absent fields are `Option`.
* The filesystem visible to the lock resolver is the list of (name, content)
  pairs present in the manifest's directory; `fs.existsSync` is `existsF`.
-/

set_option maxHeartbeats 1000000

namespace Scanner

/-- Model of `p.isPrefixOf s` on character lists (used for JS `startsWith`). -/
def leadsWith : List Char → List Char → Bool
  | [], _ => true
  | _ :: _, [] => false
  | a :: as, b :: bs => a == b && leadsWith as bs

/-- Model of JS `String.prototype.startsWith`. -/
def strStarts (s p : String) : Bool :=
  leadsWith p.data s.data

/-- Character-list substring search: does the second list contain the first? -/
def seqContains (needle : List Char) : List Char → Bool
  | [] => needle.isEmpty
  | c :: t => leadsWith needle (c :: t) || seqContains needle t

/-- Model of JS `String.prototype.includes` (case-sensitive substring test). -/
def strIncludes (hay needle : String) : Bool :=
  seqContains needle.data hay.data

/-- Model of JS `String.prototype.toLowerCase` (ASCII range). -/
def lowerStr (s : String) : String :=
  String.mk (s.data.map Char.toLower)

/-- Model of the JS truthiness-guarded test
`field && field.toLowerCase().includes('malicious')` applied to an optional
string field (absent or empty string is falsy). -/
def optMal : Option String → Bool
  | none => false
  | some s => (!(s == "")) && strIncludes (lowerStr s) "malicious"

/-- An OSV advisory with its identifier known to be a string
(the shape assumed by `main`'s classification loop). -/
structure Advisory where
  id : String
  summary : Option String
  details : Option String
deriving DecidableEq

/-- Model of the classification expression in `main` (check-malicious.js
lines 266-268): `vuln.id.startsWith('MAL-') || (vuln.details && ...) ||
(vuln.summary && ...)`. -/
def isMalicious (v : Advisory) : Bool :=
  strStarts v.id "MAL-" || optMal v.details || optMal v.summary

/-- An advisory as actually received over the wire: the `id` field may be
absent, in which case `vuln.id.startsWith` throws a `TypeError`. -/
structure RawVuln where
  id : Option String
  summary : Option String
  details : Option String
deriving DecidableEq

/-- JS runtime error raised by dereferencing an absent field. -/
inductive JsErr where
  | typeError
deriving DecidableEq

/-- Classification of one raw advisory record: dereferencing `vuln.id`
throws when the field is absent, otherwise the boolean rule applies. -/
def classifyVuln (v : RawVuln) : Except JsErr Bool :=
  match v.id with
  | none => Except.error JsErr.typeError
  | some i => Except.ok (isMalicious ⟨i, v.summary, v.details⟩)

theorem optMal_iff (o : Option String) :
    optMal o = true ↔
      ∃ s, o = some s ∧ strIncludes (lowerStr s) "malicious" = true := by
  cases o with
  | none => simp [optMal]
  | some s =>
    constructor
    · intro h
      have h2 := (Bool.and_eq_true _ _).mp h
      exact ⟨s, rfl, h2.2⟩
    · rintro ⟨t, ht, hc⟩
      have hts : t = s := by injection ht with h; exact h.symm
      subst hts
      have hne : (t == "") = false := by
        cases hq : (t == "") with
        | false => rfl
        | true =>
          have : t = "" := eq_of_beq hq
          subst this
          exact absurd hc (by decide)
      simp [optMal, hne, hc]

/-- Claim C3: an advisory is classified malicious iff its id starts with
"MAL-", or its details field (when present) contains "malicious"
case-insensitively, or its summary field (when present) does; in particular
the three concrete examples from the spec classify as stated. -/
theorem claim_C3_classifier :
    (∀ v : Advisory, isMalicious v = true ↔
      (strStarts v.id "MAL-" = true ∨
       (∃ d, v.details = some d ∧ strIncludes (lowerStr d) "malicious" = true) ∨
       (∃ s, v.summary = some s ∧ strIncludes (lowerStr s) "malicious" = true)))
    ∧ isMalicious ⟨"MAL-2024-1234", none, none⟩ = true
    ∧ isMalicious ⟨"GHSA-xxxx", some "Contains Malicious code", none⟩ = true
    ∧ isMalicious ⟨"GHSA-yyyy", some "Denial of service", none⟩ = false := by
  refine ⟨?_, by decide, by decide, by decide⟩
  intro v
  constructor
  · intro h
    rcases (Bool.or_eq_true _ _).mp h with h1 | h2
    · rcases (Bool.or_eq_true _ _).mp h1 with ha | hb
      · exact Or.inl ha
      · exact Or.inr (Or.inl ((optMal_iff _).mp hb))
    · exact Or.inr (Or.inr ((optMal_iff _).mp h2))
  · rintro (ha | hb | hc)
    · simp [isMalicious, ha]
    · simp [isMalicious, (optMal_iff _).mpr hb]
    · simp [isMalicious, (optMal_iff _).mpr hc]

/-- Claim C10: classification dereferences the advisory's id field
unconditionally; it is total exactly on records whose id is present, and a
record lacking an id raises a TypeError. -/
theorem claim_C10_id_total :
    (∀ (v : RawVuln) (s : String), v.id = some s →
        classifyVuln v = Except.ok (isMalicious ⟨s, v.summary, v.details⟩))
    ∧ (∀ su de, classifyVuln ⟨none, su, de⟩ = Except.error JsErr.typeError) := by
  constructor
  · intro v s h
    cases v with
    | mk i su de =>
      cases h
      rfl
  · intro su de
    rfl

/-- Witness for C10: the classification theorem applied at a concrete
advisory whose id is present. -/
theorem claim_C10_witness :
    classifyVuln ⟨some "MAL-1", none, none⟩ =
      Except.ok (isMalicious ⟨"MAL-1", none, none⟩) :=
  claim_C10_id_total.1 ⟨some "MAL-1", none, none⟩ "MAL-1" rfl

/-- JS `a || b` on an optional string: absent or empty string falls back. -/
def jsOr (o : Option String) (d : String) : String :=
  match o with
  | none => d
  | some s => if s == "" then d else s

/-- One OSV batch-query element, as built in `queryOSV` (lines 135-141):
`{package: {name, ecosystem: 'npm'}, version}`. -/
structure OsvQuery where
  name : String
  ecosystem : String
  version : String
deriving DecidableEq

/-- The query list built from a dependency map:
`Array.from(packages).map(([name, version]) => ...)`. -/
def toQueries (deps : List (String × String)) : List OsvQuery :=
  deps.map (fun p => ⟨p.1, "npm", p.2⟩)

/-- Fuel-driven chunking into batches of 1000; the fuel is an upper bound on
the list length, so `chunksFuel l.length l` realises the batching loop
`for (let i = 0; i < queries.length; i += 1000) slice(i, i+1000)`. -/
def chunksFuel {α : Type} : Nat → List α → List (List α)
  | 0, _ => []
  | _ + 1, [] => []
  | fuel + 1, q :: rest => ((q :: rest).take 1000) :: chunksFuel fuel ((q :: rest).drop 1000)

/-- The batches submitted by `queryOSV` for a query list (batch size 1000,
original order preserved within and across batches). -/
def osvChunks {α : Type} (l : List α) : List (List α) :=
  chunksFuel l.length l

/-- Model of `queryOSV` under an abstract per-batch responder: one request
per batch, `results.push(...result.results)` concatenating in request
order. -/
def queryOSV {R : Type} (resp : List OsvQuery → List R) (qs : List OsvQuery) : List R :=
  ((osvChunks qs).map resp).flatten

theorem chunksFuel_flatten {α : Type} :
    ∀ (n : Nat) (l : List α), l.length ≤ n → (chunksFuel n l).flatten = l := by
  intro n
  induction n with
  | zero =>
    intro l h
    cases l with
    | nil => rfl
    | cons a t => simp at h
  | succ n ih =>
    intro l h
    cases l with
    | nil => rfl
    | cons a t =>
      rw [chunksFuel, List.flatten_cons,
        ih ((a :: t).drop 1000) (by simp [List.length_drop] at h ⊢; omega)]
      exact List.take_append_drop 1000 (a :: t)

theorem osvChunks_flatten {α : Type} (l : List α) : (osvChunks l).flatten = l :=
  chunksFuel_flatten l.length l (Nat.le_refl _)

theorem chunksFuel_length {α : Type} :
    ∀ (n : Nat) (l : List α), l.length ≤ n →
      (chunksFuel n l).length = (l.length + 999) / 1000 := by
  intro n
  induction n with
  | zero =>
    intro l h
    cases l with
    | nil => norm_num [chunksFuel]
    | cons a t => simp at h
  | succ n ih =>
    intro l h
    cases l with
    | nil => norm_num [chunksFuel]
    | cons a t =>
      rw [chunksFuel, List.length_cons,
        ih ((a :: t).drop 1000) (by simp [List.length_drop] at h ⊢; omega)]
      simp only [List.length_drop, List.length_cons]
      omega

theorem osvChunks_length {α : Type} (l : List α) :
    (osvChunks l).length = (l.length + 999) / 1000 :=
  chunksFuel_length l.length l (Nat.le_refl _)

theorem queryOSV_pointwise {R : Type} (g : OsvQuery → R) (qs : List OsvQuery) :
    queryOSV (fun b => b.map g) qs = qs.map g := by
  unfold queryOSV
  conv_rhs => rw [← osvChunks_flatten qs]
  rw [List.map_flatten]

/-- Claim C2: for a dependency set of size N the matcher issues exactly
ceil(N/1000) batches, the batches concatenate back to the original ordered
query list, and for any per-query response semantics the aggregated result
list is the original list mapped pointwise, so slot i belongs to package i. -/
theorem claim_C2_batching :
    (∀ deps : List (String × String),
        (osvChunks (toQueries deps)).length = (deps.length + 999) / 1000)
    ∧ (∀ qs : List OsvQuery, (osvChunks qs).flatten = qs)
    ∧ (∀ {R : Type} (g : OsvQuery → R) (qs : List OsvQuery),
        queryOSV (fun b => b.map g) qs = qs.map g)
    ∧ (∀ {R : Type} (g : OsvQuery → R) (deps : List (String × String)) (i : Nat),
        (queryOSV (fun b => b.map g) (toQueries deps)).get? i =
          (deps.get? i).map (fun p => g ⟨p.1, "npm", p.2⟩)) := by
  refine ⟨?_, osvChunks_flatten, ?_, ?_⟩
  · intro deps
    rw [osvChunks_length]
    simp [toQueries]
  · intro R g qs
    exact queryOSV_pointwise g qs
  · intro R g deps i
    rw [queryOSV_pointwise]
    simp only [toQueries, List.get?_eq_getElem?, List.getElem?_map, Option.map_map]
    rfl

/-- Model of `queryOSV` with a fallible responder: a rejected request
promise or a JSON.parse failure for any batch propagates as an error of the
whole call; no partial result is returned. -/
def queryOSVE {R : Type} (resp : List OsvQuery → Except String (List R)) :
    List (List OsvQuery) → Except String (List R)
  | [] => Except.ok []
  | b :: rest =>
    match resp b with
    | Except.error e => Except.error e
    | Except.ok rs =>
      match queryOSVE resp rest with
      | Except.error e => Except.error e
      | Except.ok more => Except.ok (rs ++ more)

theorem queryOSVE_error {R : Type} (resp : List OsvQuery → Except String (List R)) :
    ∀ (bs : List (List OsvQuery)) (b : List OsvQuery) (e : String),
      b ∈ bs → resp b = Except.error e →
      ∃ e', queryOSVE resp bs = Except.error e' := by
  intro bs
  induction bs with
  | nil =>
    intro b e h
    cases h
  | cons hd tl ih =>
    intro b e hmem hresp
    rcases List.mem_cons.mp hmem with heq | htl
    · subst heq
      exact ⟨e, by simp [queryOSVE, hresp]⟩
    · cases hhd : resp hd with
      | error e2 => exact ⟨e2, by simp [queryOSVE, hhd]⟩
      | ok rs =>
        obtain ⟨e', he'⟩ := ih b e htl hresp
        exact ⟨e', by simp [queryOSVE, hhd, he']⟩

/-- One result slot of an OSV response (`results[i]`): the `vulns` field may
be absent. -/
abbrev Slot := Option (List RawVuln)

/-- One finding pushed by `main` (lines 271-276); the package name is
`packagesArray[i]`, which is `undefined` when `i` is out of range. -/
structure Finding where
  pkg : Option String
  ver : Option String
  vid : String
  summ : String
deriving DecidableEq

/-- Model of `dependencies.get(packageName)` on the association list. -/
def lookupVer (deps : List (String × String)) (n : String) : Option String :=
  (deps.find? (fun p => p.1 == n)).map (fun p => p.2)

/-- The inner `for (const vuln of results[i].vulns)` loop of `main`:
classify each advisory (throwing on an absent id) and push the malicious
ones as findings. -/
def classifyList (pkg ver : Option String) : List RawVuln → Except JsErr (List Finding)
  | [] => Except.ok []
  | v :: vs =>
    match classifyVuln v with
    | Except.error e => Except.error e
    | Except.ok b =>
      match classifyList pkg ver vs with
      | Except.error e => Except.error e
      | Except.ok rest =>
        Except.ok
          (if b then
            ⟨pkg, ver, v.id.getD "", jsOr v.summary "Malicious package detected"⟩ :: rest
          else rest)

/-- The outer `for (let i = 0; i < results.length; i++)` loop of `main`:
a slot is processed only when `results[i].vulns` is present and non-empty. -/
def slotsGo (deps : List (String × String)) : Nat → List Slot → Except JsErr (List Finding)
  | _, [] => Except.ok []
  | i, s :: rest =>
    let cur : Except JsErr (List Finding) :=
      match s with
      | none => Except.ok []
      | some vs =>
        if vs.isEmpty then Except.ok []
        else
          let pkg := (deps[i]?).map (fun p => p.1)
          let ver := match pkg with
                     | none => none
                     | some n => lookupVer deps n
          classifyList pkg ver vs
    match cur with
    | Except.error e => Except.error e
    | Except.ok fs =>
      match slotsGo deps (i + 1) rest with
      | Except.error e => Except.error e
      | Except.ok more => Except.ok (fs ++ more)

/-- Result classification for one manifest's aggregated OSV results. -/
def classifySlots (deps : List (String × String)) (slots : List Slot) :
    Except JsErr (List Finding) :=
  slotsGo deps 0 slots

/-- Abstract outcome of the per-manifest pipeline stages that precede
classification: lock resolution failed, lock parse failed, or a dependency
map was obtained together with the outcome of the whole batched OSV query. -/
inductive ManifestStep where
  | noLock
  | parseErr
  | parsed (deps : List (String × String)) (net : Except String (List Slot))

/-- A run-fatal error: a rejected/undecodable OSV exchange, or a thrown
TypeError from classification; both reach `main().catch`. -/
inductive RunErr where
  | transport (e : String)
  | typeErr
deriving DecidableEq

/-- The per-manifest loop of `main` (lines 211-294): skipped manifests
contribute nothing, an empty dependency map short-circuits before the
network, a query failure or classification throw aborts the run, findings
accumulate in order. The second component counts `queryOSV` invocations. -/
def runLoop : List ManifestStep → List Finding → Nat → Except (RunErr × Nat) (List Finding × Nat)
  | [], acc, n => Except.ok (acc, n)
  | ManifestStep.noLock :: rest, acc, n => runLoop rest acc n
  | ManifestStep.parseErr :: rest, acc, n => runLoop rest acc n
  | ManifestStep.parsed deps net :: rest, acc, n =>
    if deps.isEmpty then runLoop rest acc n
    else
      match net with
      | Except.error e => Except.error (RunErr.transport e, n + 1)
      | Except.ok slots =>
        match classifySlots deps slots with
        | Except.error _ => Except.error (RunErr.typeErr, n + 1)
        | Except.ok fs => runLoop rest (acc ++ fs) (n + 1)

/-- The observable outcome of a run: process exit code, the aggregated
finding list, and the number of OSV query invocations issued. -/
structure RunResult where
  exitCode : Nat
  findings : List Finding
  netCalls : Nat
deriving DecidableEq

/-- Whole-process model of `main` plus its `.catch` handler: a discovery
error exits 1; an empty manifest list exits 0 immediately (line 198-202);
otherwise the loop runs, a fatal error exits 1, and the final report exits 1
iff any malicious finding was recorded. -/
def runMain (disc : Except String (List ManifestStep)) : RunResult :=
  match disc with
  | Except.error _ => ⟨1, [], 0⟩
  | Except.ok ms =>
    if ms.isEmpty then ⟨0, [], 0⟩
    else
      match runLoop ms [] 0 with
      | Except.error (_, n) => ⟨1, [], n⟩
      | Except.ok (fs, n) => ⟨if fs.isEmpty then 0 else 1, fs, n⟩

/-- A response slot is well-formed when every advisory in it has an id. -/
def slotWF : Slot → Bool
  | none => true
  | some vs => vs.all (fun v => v.id.isSome)

/-- A manifest step is well-formed when any successful OSV response it
carries consists of well-formed slots. -/
def stepWF : ManifestStep → Bool
  | ManifestStep.parsed _ (Except.ok slots) => slots.all slotWF
  | _ => true

def wellFormed (ms : List ManifestStep) : Bool := ms.all stepWF

/-- Does a step suffer a transport/decode failure that `main` would hit
(a queried manifest whose OSV exchange fails)? -/
def stepTransport : ManifestStep → Bool
  | ManifestStep.parsed deps (Except.error _) => !deps.isEmpty
  | _ => false

def hasTransportErr (ms : List ManifestStep) : Bool := ms.any stepTransport

/-- Does a step yield at least one malicious finding? -/
def stepFinds : ManifestStep → Bool
  | ManifestStep.parsed deps (Except.ok slots) =>
    !deps.isEmpty &&
      (match classifySlots deps slots with
       | Except.ok fs => !fs.isEmpty
       | Except.error _ => false)
  | _ => false

def hasMaliciousFinding (ms : List ManifestStep) : Bool := ms.any stepFinds

theorem classifyList_wf (pkg ver : Option String) :
    ∀ vs : List RawVuln, vs.all (fun v => v.id.isSome) = true →
      ∃ fs, classifyList pkg ver vs = Except.ok fs := by
  intro vs
  induction vs with
  | nil => intro _; exact ⟨[], rfl⟩
  | cons v t ih =>
    intro h
    rw [List.all_cons, Bool.and_eq_true] at h
    obtain ⟨i, hi⟩ := Option.isSome_iff_exists.mp h.1
    obtain ⟨fs, hfs⟩ := ih h.2
    simp only [classifyList, classifyVuln, hi, hfs]
    exact ⟨_, rfl⟩

theorem slotsGo_wf (deps : List (String × String)) :
    ∀ (slots : List Slot) (i : Nat), slots.all slotWF = true →
      ∃ fs, slotsGo deps i slots = Except.ok fs := by
  intro slots
  induction slots with
  | nil => intro i _; exact ⟨[], rfl⟩
  | cons s rest ih =>
    intro i h
    rw [List.all_cons, Bool.and_eq_true] at h
    obtain ⟨more, hmore⟩ := ih (i + 1) h.2
    cases s with
    | none =>
      exact ⟨more, by rw [slotsGo]; simp only [hmore]; rfl⟩
    | some vs =>
      by_cases hvs : vs.isEmpty
      · exact ⟨more, by rw [slotsGo]; simp only [hvs, if_true]; simp only [hmore]; rfl⟩
      · obtain ⟨fs, hfs⟩ := classifyList_wf
          ((deps[i]?).map (fun p => p.1))
          (match (deps[i]?).map (fun p => p.1) with
           | none => none
           | some n => lookupVer deps n) vs h.1
        refine ⟨fs ++ more, ?_⟩
        rw [slotsGo]
        simp only [hvs, if_false, Bool.false_eq_true, hfs, hmore]

theorem isEmpty_append_eq {α : Type} (l m : List α) :
    (l ++ m).isEmpty = (l.isEmpty && m.isEmpty) := by
  cases l <;> simp [List.isEmpty]

theorem runLoop_spec :
    ∀ (ms : List ManifestStep) (acc : List Finding) (n : Nat),
      wellFormed ms = true →
      (hasTransportErr ms = true →
          ∃ e n', runLoop ms acc n = Except.error (RunErr.transport e, n'))
      ∧ (hasTransportErr ms = false →
          ∃ fs n', runLoop ms acc n = Except.ok (acc ++ fs, n') ∧
            fs.isEmpty = !hasMaliciousFinding ms) := by
  intro ms
  induction ms with
  | nil =>
    intro acc n _
    refine ⟨?_, ?_⟩
    · intro h
      simp [hasTransportErr] at h
    · intro _
      exact ⟨[], n, by simp [runLoop], by simp [hasMaliciousFinding]⟩
  | cons s rest ih =>
    intro acc n hwf
    rw [wellFormed, List.all_cons, Bool.and_eq_true] at hwf
    have hwfr : wellFormed rest = true := hwf.2
    cases s with
    | noLock =>
      have h1 := ih acc n hwfr
      refine ⟨?_, ?_⟩
      · intro ht
        have ht' : hasTransportErr rest = true := by
          simpa [hasTransportErr, stepTransport] using ht
        obtain ⟨e, n', he⟩ := h1.1 ht'
        exact ⟨e, n', by simpa [runLoop] using he⟩
      · intro ht
        have ht' : hasTransportErr rest = false := by
          simpa [hasTransportErr, stepTransport] using ht
        obtain ⟨fs, n', hok, hemp⟩ := h1.2 ht'
        exact ⟨fs, n', by simpa [runLoop] using hok,
          by simpa [hasMaliciousFinding, stepFinds] using hemp⟩
    | parseErr =>
      have h1 := ih acc n hwfr
      refine ⟨?_, ?_⟩
      · intro ht
        have ht' : hasTransportErr rest = true := by
          simpa [hasTransportErr, stepTransport] using ht
        obtain ⟨e, n', he⟩ := h1.1 ht'
        exact ⟨e, n', by simpa [runLoop] using he⟩
      · intro ht
        have ht' : hasTransportErr rest = false := by
          simpa [hasTransportErr, stepTransport] using ht
        obtain ⟨fs, n', hok, hemp⟩ := h1.2 ht'
        exact ⟨fs, n', by simpa [runLoop] using hok,
          by simpa [hasMaliciousFinding, stepFinds] using hemp⟩
    | parsed deps net =>
      cases net with
      | error e =>
        cases hde : deps.isEmpty with
        | true =>
          have h1 := ih acc n hwfr
          refine ⟨?_, ?_⟩
          · intro ht
            have ht' : hasTransportErr rest = true := by
              simpa [hasTransportErr, stepTransport, hde] using ht
            obtain ⟨e', n', he⟩ := h1.1 ht'
            exact ⟨e', n', by simpa [runLoop, hde] using he⟩
          · intro ht
            have ht' : hasTransportErr rest = false := by
              simpa [hasTransportErr, stepTransport, hde] using ht
            obtain ⟨fs, n', hok, hemp⟩ := h1.2 ht'
            exact ⟨fs, n', by simpa [runLoop, hde] using hok,
              by simpa [hasMaliciousFinding, stepFinds] using hemp⟩
        | false =>
          refine ⟨?_, ?_⟩
          · intro _
            exact ⟨e, n + 1, by simp [runLoop, hde]⟩
          · intro ht
            exfalso
            simp [hasTransportErr, stepTransport, hde] at ht
      | ok slots =>
        cases hde : deps.isEmpty with
        | true =>
          have h1 := ih acc n hwfr
          refine ⟨?_, ?_⟩
          · intro ht
            have ht' : hasTransportErr rest = true := by
              simpa [hasTransportErr, stepTransport] using ht
            obtain ⟨e', n', he⟩ := h1.1 ht'
            exact ⟨e', n', by simpa [runLoop, hde] using he⟩
          · intro ht
            have ht' : hasTransportErr rest = false := by
              simpa [hasTransportErr, stepTransport] using ht
            obtain ⟨fs, n', hok, hemp⟩ := h1.2 ht'
            exact ⟨fs, n', by simpa [runLoop, hde] using hok,
              by simpa [hasMaliciousFinding, stepFinds, hde] using hemp⟩
        | false =>
          have hswf : slots.all slotWF = true := hwf.1
          obtain ⟨fs, hfs⟩ := slotsGo_wf deps slots 0 hswf
          have hcs : classifySlots deps slots = Except.ok fs := hfs
          have h1 := ih (acc ++ fs) (n + 1) hwfr
          refine ⟨?_, ?_⟩
          · intro ht
            have ht' : hasTransportErr rest = true := by
              simpa [hasTransportErr, stepTransport] using ht
            obtain ⟨e', n', he⟩ := h1.1 ht'
            exact ⟨e', n', by simpa [runLoop, hde, hcs] using he⟩
          · intro ht
            have ht' : hasTransportErr rest = false := by
              simpa [hasTransportErr, stepTransport] using ht
            obtain ⟨fs', n', hok, hemp⟩ := h1.2 ht'
            refine ⟨fs ++ fs', n', ?_, ?_⟩
            · rw [runLoop]
              simp only [hde, Bool.false_eq_true, if_false, hcs]
              rw [hok, List.append_assoc]
            · simp only [hasMaliciousFinding, List.any_cons, stepFinds, hde, hcs,
                Bool.not_false, Bool.true_and, isEmpty_append_eq, hemp,
                Bool.not_or]
              rw [← hasMaliciousFinding]
              cases fs.isEmpty <;> cases hasMaliciousFinding rest <;> simp

/-- Claim C7: the process exits 0 exactly on an empty manifest list or a
run with no fatal error and no malicious finding (skipped manifests count as
clean), exits 1 exactly when a discovery or transport/decode error occurs or
a malicious package is found, and an empty manifest list also produces zero
findings and zero network calls. -/
theorem claim_C7_exit_contract :
    runMain (Except.ok []) = ⟨0, [], 0⟩
    ∧ (∀ e, runMain (Except.error e) = ⟨1, [], 0⟩)
    ∧ (∀ ms : List ManifestStep, wellFormed ms = true →
        ((runMain (Except.ok ms)).exitCode = 1 ↔
          (hasTransportErr ms = true ∨ hasMaliciousFinding ms = true))
        ∧ ((runMain (Except.ok ms)).exitCode = 0 ↔
          (hasTransportErr ms = false ∧ hasMaliciousFinding ms = false))) := by
  refine ⟨rfl, fun e => rfl, ?_⟩
  intro ms hwf
  cases ms with
  | nil =>
    constructor <;> simp [runMain, hasTransportErr, hasMaliciousFinding]
  | cons s rest =>
    have hspec := runLoop_spec (s :: rest) [] 0 hwf
    cases ht : hasTransportErr (s :: rest) with
    | true =>
      obtain ⟨e, n', he⟩ := hspec.1 ht
      have hrm : runMain (Except.ok (s :: rest)) = ⟨1, [], n'⟩ := by
        simp [runMain, he]
      rw [hrm]
      constructor
      · simp
      · simp
    | false =>
      obtain ⟨fs, n', hok, hemp⟩ := hspec.2 ht
      have hrm : runMain (Except.ok (s :: rest)) =
          ⟨if fs.isEmpty then 0 else 1, fs, n'⟩ := by
        simp [runMain, hok]
      rw [hrm]
      cases hm : hasMaliciousFinding (s :: rest) with
      | true =>
        rw [hm] at hemp
        simp only [Bool.not_true] at hemp
        simp [hemp]
      | false =>
        rw [hm] at hemp
        simp only [Bool.not_false] at hemp
        simp [hemp]

/-- A concrete scenario for the exit-code contract: one manifest, one
dependency, one malicious advisory returned. -/
def msExample : List ManifestStep :=
  [ManifestStep.parsed [("colors-update", "2.0.0")]
    (Except.ok [some [⟨some "MAL-2024-1234", none, none⟩]])]

/-- Witness for C7: the contract applied to a concrete well-formed run. -/
theorem claim_C7_witness :
    ((runMain (Except.ok msExample)).exitCode = 1 ↔
      (hasTransportErr msExample = true ∨ hasMaliciousFinding msExample = true))
    ∧ ((runMain (Except.ok msExample)).exitCode = 0 ↔
      (hasTransportErr msExample = false ∧ hasMaliciousFinding msExample = false)) :=
  claim_C7_exit_contract.2.2 msExample (by decide)

theorem runLoop_mem_error :
    ∀ (ms : List ManifestStep) (acc : List Finding) (n : Nat)
      (deps : List (String × String)) (e : String),
      ManifestStep.parsed deps (Except.error e) ∈ ms → deps.isEmpty = false →
      ∃ r, runLoop ms acc n = Except.error r := by
  intro ms
  induction ms with
  | nil =>
    intro acc n deps e h _
    cases h
  | cons s rest ih =>
    intro acc n deps e hmem hde
    rcases List.mem_cons.mp hmem with heq | htl
    · cases heq.symm
      exact ⟨(RunErr.transport e, n + 1), by simp [runLoop, hde]⟩
    · cases s with
      | noLock =>
        obtain ⟨r, hr⟩ := ih acc n deps e htl hde
        exact ⟨r, by simpa [runLoop] using hr⟩
      | parseErr =>
        obtain ⟨r, hr⟩ := ih acc n deps e htl hde
        exact ⟨r, by simpa [runLoop] using hr⟩
      | parsed d nt =>
        cases hd : d.isEmpty with
        | true =>
          obtain ⟨r, hr⟩ := ih acc n deps e htl hde
          exact ⟨r, by simpa [runLoop, hd] using hr⟩
        | false =>
          cases nt with
          | error e2 =>
            exact ⟨(RunErr.transport e2, n + 1), by simp [runLoop, hd]⟩
          | ok slots =>
            cases hcs : classifySlots d slots with
            | error e3 =>
              exact ⟨(RunErr.typeErr, n + 1), by simp [runLoop, hd, hcs]⟩
            | ok fs =>
              obtain ⟨r, hr⟩ := ih (acc ++ fs) (n + 1) deps e htl hde
              exact ⟨r, by simp [runLoop, hd, hcs, hr]⟩

/-- Claim C4: a network or decode failure of any batch makes the whole
batched query evaluate to an error (never to an ok result that could look
like "no vulnerabilities"), and a manifest whose OSV exchange fails makes
the whole run exit with code 1. -/
theorem claim_C4_batch_failure_fatal :
    (∀ {R : Type} (resp : List OsvQuery → Except String (List R))
        (qs b : List OsvQuery) (e : String),
        b ∈ osvChunks qs → resp b = Except.error e →
        ∃ e', queryOSVE resp (osvChunks qs) = Except.error e')
    ∧ (∀ (ms : List ManifestStep) (deps : List (String × String)) (e : String),
        ManifestStep.parsed deps (Except.error e) ∈ ms → deps.isEmpty = false →
        (runMain (Except.ok ms)).exitCode = 1) := by
  constructor
  · intro R resp qs b e hmem hresp
    exact queryOSVE_error resp (osvChunks qs) b e hmem hresp
  · intro ms deps e hmem hde
    obtain ⟨r, hr⟩ := runLoop_mem_error ms [] 0 deps e hmem hde
    have hne : ms.isEmpty = false := by
      cases ms with
      | nil => cases hmem
      | cons a t => rfl
    obtain ⟨re, nn⟩ := r
    simp [runMain, hne, hr]

/-- Witness for C4: both halves applied at concrete failing inputs. -/
theorem claim_C4_witness :
    (∃ e', queryOSVE (fun _ => (Except.error "boom" : Except String (List Nat)))
        (osvChunks [(⟨"left-pad", "npm", "1.0.0"⟩ : OsvQuery)]) = Except.error e')
    ∧ (runMain (Except.ok [ManifestStep.parsed [("left-pad", "1.0.0")]
        (Except.error "boom")])).exitCode = 1 :=
  ⟨claim_C4_batch_failure_fatal.1 _ [⟨"left-pad", "npm", "1.0.0"⟩]
      [⟨"left-pad", "npm", "1.0.0"⟩] "boom" (by decide) rfl,
   claim_C4_batch_failure_fatal.2
      [ManifestStep.parsed [("left-pad", "1.0.0")] (Except.error "boom")]
      [("left-pad", "1.0.0")] "boom" (List.mem_singleton.mpr rfl) rfl⟩

/-- The files present in a manifest's directory, as (basename, content)
pairs. -/
abbrev FList := List (String × String)

/-- Model of `fs.existsSync(path.join(dir, name))`. -/
def existsF (name : String) (fs : FList) : Bool :=
  fs.any (fun p => p.1 == name)

theorem existsF_cons (n c q : String) (fs : FList) :
    existsF q ((n, c) :: fs) = ((n == q) || existsF q fs) := by
  simp [existsF]

/-- Behaviour of the external package managers when invoked in this
directory: whether each invocation throws (is reported failed) and whether
it leaves its lock file on disk, with the content written. The two are
independent: a subprocess may exit zero without writing the file, or write
it and still fail. -/
structure PMEnv where
  npmThrows : Bool
  npmCreates : Bool
  npmContent : String
  yarnThrows : Bool
  yarnCreates : Bool
  yarnContent : String

/-- Trace of one `generateLockFile` call: the returned lock path (as a
basename), the resulting directory contents, and which package managers
were invoked. -/
structure LockTrace where
  res : Option String
  fs : FList
  npmInvoked : Bool
  yarnInvoked : Bool

/-- Model of `generateLockFile` (lines 31-73): return a pre-existing lock
file unchanged; otherwise run npm and, only when npm throws, fall back to
yarn; each synthesis attempt is judged by a subsequent `existsSync`. -/
def generateLockFile (env : PMEnv) (fs : FList) : LockTrace :=
  if existsF "package-lock.json" fs || existsF "yarn.lock" fs then
    ⟨some (if existsF "package-lock.json" fs then "package-lock.json" else "yarn.lock"),
      fs, false, false⟩
  else
    let fs1 := if env.npmCreates then ("package-lock.json", env.npmContent) :: fs else fs
    if env.npmThrows then
      let fs2 := if env.yarnCreates then ("yarn.lock", env.yarnContent) :: fs1 else fs1
      if env.yarnThrows then ⟨none, fs2, true, true⟩
      else if existsF "yarn.lock" fs2 then ⟨some "yarn.lock", fs2, true, true⟩
      else ⟨none, fs2, true, true⟩
    else
      if existsF "package-lock.json" fs1 then ⟨some "package-lock.json", fs1, true, false⟩
      else ⟨none, fs1, true, false⟩

/-- Model of JS `s.endsWith(p)`. -/
def strEnds (s p : String) : Bool :=
  leadsWith p.data.reverse s.data.reverse

/-- Model of `lockFile.replace(/\.(json|lock)$/, '.json')` from line 222:
a trailing ".json" or ".lock" (5 characters) is replaced by ".json". -/
def replaceExt (s : String) : String :=
  if strEnds s ".json" || strEnds s ".lock" then
    String.mk (s.data.take (s.data.length - 5) ++ ".json".data)
  else s

/-- Trace of the lock-resolution block of `main` (lines 216-226): the lock
file used, the directory contents after resolution, the entries pushed onto
`tempLockFiles`, and which package managers ran. -/
structure ResolveTrace where
  lockFile : Option String
  fs : FList
  temp : List String
  npmInvoked : Bool
  yarnInvoked : Bool

/-- Model of lines 216-226 of `main`: use a pre-existing lock file if
present, else synthesize one, and record it as temporary only when
`existsSync(lockFile.replace(/\.(json|lock)$/, '.json'))` is false at that
moment. -/
def mainResolve (env : PMEnv) (fs : FList) : ResolveTrace :=
  if existsF "package-lock.json" fs then
    ⟨some "package-lock.json", fs, [], false, false⟩
  else if existsF "yarn.lock" fs then
    ⟨some "yarn.lock", fs, [], false, false⟩
  else
    let t := generateLockFile env fs
    match t.res with
    | none => ⟨none, t.fs, [], t.npmInvoked, t.yarnInvoked⟩
    | some p =>
      ⟨some p, t.fs,
        if existsF (replaceExt p) t.fs then [] else [p],
        t.npmInvoked, t.yarnInvoked⟩

/-- Model of the cleanup phase of `main` (lines 296-302): unlink every path
recorded in `tempLockFiles`. -/
def cleanupPhase (temp : List String) (fs : FList) : FList :=
  fs.filter (fun p => !temp.contains p.1)

/-- The concrete failing input for claim C1: a directory holding only
`package.json`, and an npm that succeeds and writes `package-lock.json`. -/
def c1Env : PMEnv := ⟨false, true, "generated-lock", false, false, ""⟩

def c1Fs : FList := [("package.json", "manifest")]

/-- Claim C1 is violated by the code: at the failing input the run
synthesizes `package-lock.json` (npm invoked, file not pre-existing, file
present afterwards), yet the path-shape re-derivation at line 222 records
no temp entry, so the cleanup phase deletes nothing and the synthesized
lock file survives the run. -/
theorem claim_C1_cleanup_bug :
    (mainResolve c1Env c1Fs).npmInvoked = true
    ∧ existsF "package-lock.json" c1Fs = false
    ∧ existsF "package-lock.json" (mainResolve c1Env c1Fs).fs = true
    ∧ (mainResolve c1Env c1Fs).lockFile = some "package-lock.json"
    ∧ (mainResolve c1Env c1Fs).temp = []
    ∧ existsF "package-lock.json"
        (cleanupPhase (mainResolve c1Env c1Fs).temp (mainResolve c1Env c1Fs).fs) = true := by
  decide

/-- The concrete counterexample input for claim C5: no pre-existing lock
file, npm exits zero but writes nothing, yarn would succeed. -/
def c5Env : PMEnv := ⟨false, false, "", false, true, "yarn-lock-data"⟩

def c5Fs : FList := [("package.json", "manifest")]

/-- Counterexample to claim C5 as stated: with no pre-existing lock file
and an npm invocation that does not result in `package-lock.json` existing,
the resolver returns failure without attempting yarn, even though yarn
would have produced `yarn.lock`. -/
theorem claim_C5_counterexample :
    existsF "package-lock.json" c5Fs = false
    ∧ existsF "yarn.lock" c5Fs = false
    ∧ (generateLockFile c5Env c5Fs).npmInvoked = true
    ∧ existsF "package-lock.json" (generateLockFile c5Env c5Fs).fs = false
    ∧ (generateLockFile c5Env c5Fs).res = none
    ∧ (generateLockFile c5Env c5Fs).yarnInvoked = false
    ∧ c5Env.yarnCreates = true := by
  decide

/-- Claim C5 as amended: with no pre-existing lock file, npm is always
invoked, yarn is attempted exactly when the npm invocation throws, and each
attempt's success is judged by the subsequent existence of the expected
lock file on disk (a returned path always exists afterwards), not by the
subprocess exit code alone. -/
theorem claim_C5_amended (env : PMEnv) (fs : FList)
    (h1 : existsF "package-lock.json" fs = false)
    (h2 : existsF "yarn.lock" fs = false) :
    (generateLockFile env fs).npmInvoked = true
    ∧ (generateLockFile env fs).yarnInvoked = env.npmThrows
    ∧ (∀ p, (generateLockFile env fs).res = some p →
        existsF p (generateLockFile env fs).fs = true)
    ∧ (env.npmThrows = false →
        (generateLockFile env fs).res =
          (if existsF "package-lock.json" (generateLockFile env fs).fs then
            some "package-lock.json" else none))
    ∧ (env.npmThrows = true → env.yarnThrows = false →
        (generateLockFile env fs).res =
          (if existsF "yarn.lock" (generateLockFile env fs).fs then
            some "yarn.lock" else none))
    ∧ (env.npmThrows = true → env.yarnThrows = true →
        (generateLockFile env fs).res = none) := by
  have e1 : (("package-lock.json" : String) == "package-lock.json") = true := by decide
  have e2 : (("package-lock.json" : String) == "yarn.lock") = false := by decide
  have e3 : (("yarn.lock" : String) == "yarn.lock") = true := by decide
  have e4 : (("yarn.lock" : String) == "package-lock.json") = false := by decide
  cases env with
  | mk nt nc ncont yt yc ycont =>
    cases nt <;> cases nc <;> cases yt <;> cases yc <;>
      simp [generateLockFile, existsF_cons, h1, h2, e1, e2, e3, e4]

/-- Witness for the amended C5: npm throws, yarn succeeds, in an empty
directory. -/
theorem claim_C5_witness :
    (generateLockFile ⟨true, false, "", false, true, "y"⟩ []).npmInvoked = true
    ∧ (generateLockFile ⟨true, false, "", false, true, "y"⟩ []).yarnInvoked =
        (⟨true, false, "", false, true, "y"⟩ : PMEnv).npmThrows
    ∧ (∀ p, (generateLockFile ⟨true, false, "", false, true, "y"⟩ []).res = some p →
        existsF p (generateLockFile ⟨true, false, "", false, true, "y"⟩ []).fs = true)
    ∧ ((⟨true, false, "", false, true, "y"⟩ : PMEnv).npmThrows = false →
        (generateLockFile ⟨true, false, "", false, true, "y"⟩ []).res =
          (if existsF "package-lock.json" (generateLockFile ⟨true, false, "", false, true, "y"⟩ []).fs then
            some "package-lock.json" else none))
    ∧ ((⟨true, false, "", false, true, "y"⟩ : PMEnv).npmThrows = true →
        (⟨true, false, "", false, true, "y"⟩ : PMEnv).yarnThrows = false →
        (generateLockFile ⟨true, false, "", false, true, "y"⟩ []).res =
          (if existsF "yarn.lock" (generateLockFile ⟨true, false, "", false, true, "y"⟩ []).fs then
            some "yarn.lock" else none))
    ∧ ((⟨true, false, "", false, true, "y"⟩ : PMEnv).npmThrows = true →
        (⟨true, false, "", false, true, "y"⟩ : PMEnv).yarnThrows = true →
        (generateLockFile ⟨true, false, "", false, true, "y"⟩ []).res = none) :=
  claim_C5_amended ⟨true, false, "", false, true, "y"⟩ [] rfl rfl

/-- Claim C6: when a lock file pre-exists beside the manifest, no package
manager is invoked, the directory (names and contents) is unchanged, the
pre-existing lock path is returned, re-running the resolver on the
resulting state returns the identical trace under any package-manager
behaviour, and the surrounding `main` block likewise runs no synthesis and
records no temp file. -/
theorem claim_C6_idempotent (env env2 : PMEnv) (fs : FList)
    (h : existsF "package-lock.json" fs = true ∨ existsF "yarn.lock" fs = true) :
    (generateLockFile env fs).npmInvoked = false
    ∧ (generateLockFile env fs).yarnInvoked = false
    ∧ (generateLockFile env fs).fs = fs
    ∧ (generateLockFile env fs).res =
        some (if existsF "package-lock.json" fs then "package-lock.json" else "yarn.lock")
    ∧ generateLockFile env2 (generateLockFile env fs).fs = generateLockFile env fs
    ∧ (mainResolve env fs).npmInvoked = false
    ∧ (mainResolve env fs).yarnInvoked = false
    ∧ (mainResolve env fs).fs = fs
    ∧ (mainResolve env fs).temp = [] := by
  have hor : (existsF "package-lock.json" fs || existsF "yarn.lock" fs) = true := by
    rcases h with h | h <;> simp [h]
  refine ⟨?_, ?_, ?_, ?_, ?_, ?_, ?_, ?_, ?_⟩ <;>
    cases hp : existsF "package-lock.json" fs with
  | true => simp [generateLockFile, mainResolve, hor, hp]
  | false =>
    have hy : existsF "yarn.lock" fs = true := by
      rcases h with h | h
      · rw [hp] at h; cases h
      · exact h
    simp [generateLockFile, mainResolve, hor, hp, hy]

/-- Witness for C6: a directory already holding `package-lock.json`. -/
theorem claim_C6_witness :
    (generateLockFile ⟨true, true, "n", true, true, "y"⟩ [("package-lock.json", "v1")]).npmInvoked = false
    ∧ (generateLockFile ⟨true, true, "n", true, true, "y"⟩ [("package-lock.json", "v1")]).yarnInvoked = false
    ∧ (generateLockFile ⟨true, true, "n", true, true, "y"⟩ [("package-lock.json", "v1")]).fs = [("package-lock.json", "v1")]
    ∧ (generateLockFile ⟨true, true, "n", true, true, "y"⟩ [("package-lock.json", "v1")]).res =
        some (if existsF "package-lock.json" [("package-lock.json", "v1")] then "package-lock.json" else "yarn.lock")
    ∧ generateLockFile ⟨false, false, "", false, false, ""⟩
        (generateLockFile ⟨true, true, "n", true, true, "y"⟩ [("package-lock.json", "v1")]).fs =
        generateLockFile ⟨true, true, "n", true, true, "y"⟩ [("package-lock.json", "v1")]
    ∧ (mainResolve ⟨true, true, "n", true, true, "y"⟩ [("package-lock.json", "v1")]).npmInvoked = false
    ∧ (mainResolve ⟨true, true, "n", true, true, "y"⟩ [("package-lock.json", "v1")]).yarnInvoked = false
    ∧ (mainResolve ⟨true, true, "n", true, true, "y"⟩ [("package-lock.json", "v1")]).fs = [("package-lock.json", "v1")]
    ∧ (mainResolve ⟨true, true, "n", true, true, "y"⟩ [("package-lock.json", "v1")]).temp = [] :=
  claim_C6_idempotent ⟨true, true, "n", true, true, "y"⟩ ⟨false, false, "", false, false, ""⟩
    [("package-lock.json", "v1")] (Or.inl (by decide))

/-- A directory entry of the scanned project tree. -/
inductive Entry where
  | file : String → Entry
  | dir : String → List Entry → Entry

/-- Model of `findPackageJsonFiles` (lines 11-29): walk entries in order,
skip any entry named `node_modules` or starting with '.', recurse into
directories, collect files named `package.json`. A path is its list of
segments from the scan root. -/
def findPkg (base : List String) : List Entry → List (List String)
  | [] => []
  | Entry.file nm :: rest =>
    (if nm == "node_modules" || strStarts nm "." then []
     else if nm == "package.json" then [base ++ [nm]] else []) ++ findPkg base rest
  | Entry.dir nm es :: rest =>
    (if nm == "node_modules" || strStarts nm "." then []
     else findPkg (base ++ [nm]) es) ++ findPkg base rest

/-- Specification-side traversal: every file path under the root, in
depth-first directory-entry order, pruning exactly the subtrees rooted at a
directory named `node_modules` or at a directory whose name begins with
'.'; no other entry is excluded. -/
def reachableFiles (base : List String) : List Entry → List (List String)
  | [] => []
  | Entry.file nm :: rest => (base ++ [nm]) :: reachableFiles base rest
  | Entry.dir nm es :: rest =>
    (if nm == "node_modules" || strStarts nm "." then []
     else reachableFiles (base ++ [nm]) es) ++ reachableFiles base rest

/-- Specification-side discoverer: the reachable files whose basename is
`package.json`. -/
def specFind (base : List String) (es : List Entry) : List (List String) :=
  (reachableFiles base es).filter (fun p => p.getLast? == some "package.json")

theorem findPkg_eq_spec_aux :
    ∀ (n : Nat) (es : List Entry), sizeOf es ≤ n →
      ∀ base, findPkg base es = specFind base es := by
  intro n
  induction n with
  | zero =>
    intro es h base
    cases es with
    | nil => simp [findPkg, specFind, reachableFiles]
    | cons e rest =>
      exfalso
      have : 0 < sizeOf (e :: rest) := by
        cases e <;> simp
      omega
  | succ n ih =>
    intro es h base
    cases es with
    | nil => simp [findPkg, specFind, reachableFiles]
    | cons e rest =>
      cases e with
      | file nm =>
        have hrest : sizeOf rest ≤ n := by
          have hsz : sizeOf (Entry.file nm :: rest) = 1 + (1 + sizeOf nm) + sizeOf rest := by
            simp
          have hnm : 0 < sizeOf nm := by
            cases nm
            simp
          omega
        have hr := ih rest hrest base
        cases hpk : nm == "package.json" with
        | true =>
          have hnm : nm = "package.json" := eq_of_beq hpk
          subst hnm
          rw [findPkg, hr]
          simp [specFind, reachableFiles, List.getLast?_concat,
            (by decide : strStarts "package.json" "." = false)]
        | false =>
          rw [findPkg, hr]
          simp only [specFind, reachableFiles, List.filter_cons, List.getLast?_concat,
            Option.some_beq_some, hpk]
          cases hexc : nm == "node_modules" || strStarts nm "." <;> simp [hpk]
      | dir nm es' =>
        have hsz : sizeOf (Entry.dir nm es' :: rest) = 1 + (1 + sizeOf nm + sizeOf es') + sizeOf rest := by
          simp
        have hnm : 0 < sizeOf nm := by
          cases nm
          simp
        have hrest : sizeOf rest ≤ n := by omega
        have hes' : sizeOf es' ≤ n := by omega
        have hr := ih rest hrest base
        have he := ih es' hes' (base ++ [nm])
        rw [findPkg, hr, he]
        simp only [specFind, reachableFiles, List.filter_append]
        cases hexc : nm == "node_modules" || strStarts nm "." <;> simp

/-- Claim C8: the discoverer returns exactly the paths of files named
`package.json` under the root, in depth-first directory-entry order,
excluding exactly the subtrees rooted at a `node_modules` directory or a
dot-directory, with no depth or count bound (the statement quantifies over
arbitrary finite trees). -/
theorem claim_C8_discovery :
    ∀ (es : List Entry) (base : List String), findPkg base es = specFind base es :=
  fun es base => findPkg_eq_spec_aux (sizeOf es) es (Nat.le_refl _) base

/-- JS `Map.set`: update an existing key in place (keeping its position),
otherwise append the new binding. -/
def mapSet (m : List (String × String)) (k v : String) : List (String × String) :=
  if m.any (fun p => p.1 == k) then
    m.map (fun p => if p.1 == k then (k, v) else p)
  else m ++ [(k, v)]

/-- A node of the npm-legacy (v1/v2) `dependencies` object tree: an
optional `version` field and optionally nested dependencies. -/
inductive DepNode where
  | mk : Option String → List (String × DepNode) → DepNode

/-- Model of `extractDeps` (lines 81-88): for each `[name, info]` record
`name -> info.version || 'unknown'`, then recurse into
`info.dependencies`. -/
def extractDeps : List (String × DepNode) → List (String × String) → List (String × String)
  | [], m => m
  | (name, DepNode.mk v ds) :: rest, m =>
    extractDeps rest (extractDeps ds (mapSet m name (jsOr v "unknown")))

/-- A value of the npm-v3 `packages` object; only its `version` field is
read. -/
structure PkgEntry where
  version : Option String

/-- Drop of the first n characters of a string. -/
def strDrop (s : String) (n : Nat) : String := String.mk (s.data.drop n)

/-- Model of `key.replace(/^node_modules\//, '')` (line 96): strip one
leading `node_modules/` segment (13 characters) when present. -/
def stripNM (key : String) : String :=
  if strStarts key "node_modules/" then strDrop key 13 else key

/-- Model of the npm-v3 loop (lines 93-102): skip the root (empty) key,
strip the leading install-dir segment, skip names still containing
`node_modules`, record `name -> info.version || 'unknown'`. -/
def v3Fold : List (String × PkgEntry) → List (String × String) → List (String × String)
  | [], m => m
  | (key, e) :: rest, m =>
    v3Fold rest
      (if key == "" then m
       else
         let name := stripNM key
         if name == "" then m
         else if strIncludes name "node_modules" then m
         else mapSet m name (jsOr e.version "unknown"))

/-- The JSON fields of a lock file that `parsePackageLock` reads. -/
structure LockData where
  dependencies : Option (List (String × DepNode))
  packages : Option (List (String × PkgEntry))

/-- Model of `parsePackageLock` (lines 75-105): walk the legacy tree when
`dependencies` is present, then the v3 map when `packages` is present, into
one shared `Map`. -/
def parsePackageLock (ld : LockData) : List (String × String) :=
  let m1 := match ld.dependencies with
    | none => []
    | some deps => extractDeps deps []
  match ld.packages with
  | none => m1
  | some pkgs => v3Fold pkgs m1

theorem leadsWith_append (l m : List Char) : leadsWith l (l ++ m) = true := by
  induction l with
  | nil => rfl
  | cons a t ih => simp [leadsWith, ih]

/-- Claim C9: a lock node whose version field is absent is recorded with
the literal version string "unknown" — neither skipped nor an error — in
both the npm-legacy tree walk and the npm-v3 packages map. -/
theorem claim_C9_unknown_version (name : String)
    (h1 : (name == "") = false)
    (h2 : strIncludes name "node_modules" = false) :
    lookupVer (parsePackageLock ⟨some [(name, DepNode.mk none [])], none⟩) name
      = some "unknown"
    ∧ lookupVer (parsePackageLock
        ⟨none, some [(String.append "node_modules/" name, ⟨none⟩)]⟩) name
      = some "unknown" := by
  constructor
  · simp [parsePackageLock, extractDeps, mapSet, jsOr, lookupVer, List.find?]
  · have hdata : (String.append "node_modules/" name).data =
        "node_modules/".data ++ name.data := String.data_append _ _
    have hkey : ((String.append "node_modules/" name) == "") = false := by
      cases hq : (String.append "node_modules/" name) == "" with
      | false => rfl
      | true =>
        have hqe := congrArg String.data (eq_of_beq hq)
        rw [hdata] at hqe
        simp at hqe
    have hstart : strStarts (String.append "node_modules/" name) "node_modules/" = true := by
      rw [strStarts, hdata]
      exact leadsWith_append _ _
    have hstrip : stripNM (String.append "node_modules/" name) = name := by
      rw [stripNM, hstart]
      simp only [if_true, strDrop, hdata]
      have h13 : ("node_modules/".data).length = 13 := by decide
      rw [← h13, List.drop_left]
    simp [parsePackageLock, v3Fold, hkey, hstrip, h1, h2, mapSet, jsOr, lookupVer, List.find?]

/-- Witness for C9: the theorem applied at the concrete package name
"lodash". -/
theorem claim_C9_witness :
    lookupVer (parsePackageLock ⟨some [("lodash", DepNode.mk none [])], none⟩) "lodash"
      = some "unknown"
    ∧ lookupVer (parsePackageLock
        ⟨none, some [(String.append "node_modules/" "lodash", ⟨none⟩)]⟩) "lodash"
      = some "unknown" :=
  claim_C9_unknown_version "lodash" (by decide) (by decide)

end Scanner
